import Mathlib

/-!
Verification development for the URL-uploader download-orchestration pipeline.

The definitions below are a shallow embedding of the Python sources:
  app.py, plugins/commands.py, plugins/helper/upload.py, plugins/config.py.
Machine floats from the source are modelled as exact rationals; Python dicts
are modelled as association lists with overwrite-on-assign semantics; fallible
code returns Except.
-/

namespace TeleLink

/-- Python `int(x)` on a real value: truncation toward zero. -/
def truncInt (q : ℚ) : Int :=
  if 0 ≤ q then ⌊q⌋ else ⌈q⌉

/-- Python banker's rounding (`round`) to an integer: round half to even. -/
def roundHalfEven (q : ℚ) : Int :=
  let f := ⌊q⌋
  let frac := q - f
  if frac < 1/2 then f
  else if 1/2 < frac then f + 1
  else if f % 2 = 0 then f else f + 1

/-- Python `round(x, 1)`. -/
def pyRound1 (q : ℚ) : ℚ :=
  (roundHalfEven (q * 10) : ℚ) / 10

/-- Python fixed-point formatting of a value with `d` decimal places,
as in the two-decimal format specifier used by the source. -/
def fmtFixed (d : Nat) (q : ℚ) : String :=
  let scaled := roundHalfEven (q * ((10 : ℚ) ^ d))
  let a := scaled.natAbs
  let ip := a / 10 ^ d
  let fp := a % 10 ^ d
  let fpStr := toString fp
  let pad := String.mk (List.replicate (d - fpStr.length) '0')
  (if scaled < 0 then "-" else "") ++ toString ip ++
    (if d = 0 then "" else "." ++ pad ++ fpStr)

/-- Helper loop of `humanbytes` (upload.py 1014–1025): walk the unit list,
dividing by 1024 until the value drops below 1024. -/
def humanbytesLoop (size : ℚ) : List String → String
  | [] => fmtFixed 2 size ++ " PB"
  | unit :: rest =>
    if size < 1024 then
      if unit = "B" ∨ unit = "KB" then
        toString (truncInt size) ++ " " ++ unit
      else
        fmtFixed 2 size ++ " " ++ unit
    else humanbytesLoop (size / 1024) rest

/-- `humanbytes` (upload.py 1014–1025).  `none` models Python `None`. -/
def humanbytes : Option Int → String
  | none => "Unknown"
  | some size =>
    if size < 0 then "Unknown"
    else if size = 0 then "0 B"
    else humanbytesLoop (size : ℚ) ["B", "KB", "MB", "GB", "TB"]

/-- `time_formatter` (upload.py 1028–1035): Python `divmod` uses floor
division, matching `Int.fdiv`/`Int.fmod`. -/
def time_formatter (seconds : ℚ) : String :=
  let total := truncInt seconds
  let minutes := Int.fdiv total 60
  let sec := Int.fmod total 60
  let hours := Int.fdiv minutes 60
  let minutes2 := Int.fmod minutes 60
  if hours ≠ 0 then
    toString hours ++ "h " ++ toString minutes2 ++ "m " ++ toString sec ++ "s"
  else if minutes2 ≠ 0 then
    toString minutes2 ++ "m " ++ toString sec ++ "s"
  else
    toString sec ++ "s"

/-- `progress_bar` (upload.py 1038–1042).  Python `"█" * filled` yields the
empty string for a negative count, while `length - filled` can exceed
`length`; both behaviours are preserved with `Int.toNat`. -/
def progress_bar (current total : Int) (length : Nat := 12) : String :=
  let filled : Int := if total ≠ 0 then truncInt ((length : ℚ) * current / total) else 0
  let bar := String.mk (List.replicate filled.toNat '█') ++
             String.mk (List.replicate ((length : Int) - filled).toNat '░')
  let percent : ℚ := if total ≠ 0 then (current : ℚ) / total * 100 else 0
  "[" ++ bar ++ "] " ++ fmtFixed 1 percent ++ "%"

/-! ### Filename handling: `os.path.splitext` and `smart_output_name` -/

/-- Index of the last occurrence of `c`, if any (Python `str.rfind`, with
`none` for the `-1` sentinel). -/
def lastIdxOf (c : Char) : List Char → Option Nat
  | [] => none
  | a :: rest =>
    match lastIdxOf c rest with
    | some j => some (j + 1)
    | none => if a = c then some 0 else none

/-- First index after the last `/` of a path (Python `sepIndex + 1`,
with `rfind` returning the `-1` sentinel when no separator exists). -/
def sepStart (p : List Char) : Nat :=
  match lastIdxOf '/' p with
  | none => 0
  | some k => k + 1

/-- Python `posixpath.splitext`: split off the extension at the last dot,
provided that dot lies after the last path separator and at least one
character between the separator and the dot is not itself a dot
(leading dots of the basename never start an extension). -/
def splitext (p : List Char) : List Char × List Char :=
  match lastIdxOf '.' p with
  | none => (p, [])
  | some d =>
    if sepStart p ≤ d ∧ ((p.drop (sepStart p)).take (d - sepStart p)).any (fun ch => ch ≠ '.') then
      (p.take d, p.drop d)
    else (p, [])

/-- `STREAMING_EXTENSIONS` (upload.py 59–64) as a lookup: manifest/segment
extensions remap to `.mp4`. -/
def STREAMING_EXTENSIONS (ext : List Char) : Option (List Char) :=
  if ext = ".m3u8".data then some ".mp4".data
  else if ext = ".m3u".data then some ".mp4".data
  else if ext = ".mpd".data then some ".mp4".data
  else if ext = ".ts".data then some ".mp4".data
  else none

/-- Core of `smart_output_name` (upload.py 139–145) on character lists:
`stem + STREAMING_EXTENSIONS.get(ext.lower(), ext)`. -/
def smartOutputNameL (filename : List Char) : List Char :=
  match STREAMING_EXTENSIONS ((splitext filename).2.map Char.toLower) with
  | some newExt => (splitext filename).1 ++ newExt
  | none => (splitext filename).1 ++ (splitext filename).2

/-- `smart_output_name` (upload.py 139–145). -/
def smart_output_name (filename : String) : String :=
  String.mk (smartOutputNameL filename.data)

lemma lastIdxOf_cons (c a : Char) (rest : List Char) :
    lastIdxOf c (a :: rest) =
      match lastIdxOf c rest with
      | some j => some (j + 1)
      | none => if a = c then some 0 else none := rfl

lemma lastIdxOf_append_some {c : Char} {ys : List Char} {j : Nat}
    (h : lastIdxOf c ys = some j) (xs : List Char) :
    lastIdxOf c (xs ++ ys) = some (xs.length + j) := by
  induction xs with
  | nil => simpa using h
  | cons a xs ih =>
    rw [List.cons_append, lastIdxOf_cons, ih]
    show some (xs.length + j + 1) = some ((a :: xs).length + j)
    simp only [List.length_cons, Option.some.injEq]
    omega

lemma lastIdxOf_append_none {c : Char} {ys : List Char}
    (h : lastIdxOf c ys = none) (xs : List Char) :
    lastIdxOf c (xs ++ ys) = lastIdxOf c xs := by
  induction xs with
  | nil => simpa using h
  | cons a xs ih =>
    rw [List.cons_append, lastIdxOf_cons, ih, ← lastIdxOf_cons]

lemma lastIdxOf_lt_length {c : Char} {p : List Char} {j : Nat}
    (h : lastIdxOf c p = some j) : j < p.length := by
  induction p generalizing j with
  | nil => simp [lastIdxOf] at h
  | cons a rest ih =>
    simp only [lastIdxOf] at h
    cases hr : lastIdxOf c rest with
    | some j0 =>
      rw [hr] at h
      simp only [Option.some.injEq] at h
      have := ih hr
      simp only [List.length_cons]
      omega
    | none =>
      rw [hr] at h
      by_cases hac : a = c
      · simp [hac] at h
        simp only [List.length_cons]
        omega
      · simp [hac] at h

lemma lastIdxOf_eq_none_of_not_mem {c : Char} {p : List Char}
    (h : c ∉ p) : lastIdxOf c p = none := by
  induction p with
  | nil => rfl
  | cons a rest ih =>
    simp only [List.mem_cons, not_or] at h
    rw [lastIdxOf_cons, ih h.2]
    simp [Ne.symm h.1]

lemma splitext_append_mp4 {stem : List Char}
    (hnd : ((stem.drop (sepStart stem)).take (stem.length - sepStart stem)).any
      (fun ch => ch ≠ '.'))
    (hsle : sepStart stem ≤ stem.length) :
    splitext (stem ++ ".mp4".data) = (stem, ".mp4".data) := by
  have hdot : lastIdxOf '.' ".mp4".data = some 0 := rfl
  have hd : lastIdxOf '.' (stem ++ ".mp4".data) = some stem.length := by
    simpa using lastIdxOf_append_some hdot stem
  have hslash : lastIdxOf '/' ".mp4".data = none := rfl
  have hsep : sepStart (stem ++ ".mp4".data) = sepStart stem := by
    unfold sepStart
    rw [lastIdxOf_append_none hslash]
  have hlen : (stem.drop (sepStart stem)).length = stem.length - sepStart stem := by
    simp [List.length_drop]
  have hwin : ((stem ++ ".mp4".data).drop (sepStart stem)).take (stem.length - sepStart stem)
      = (stem.drop (sepStart stem)).take (stem.length - sepStart stem) := by
    rw [List.drop_append_of_le_length hsle, List.take_left' hlen, ← hlen, List.take_length]
  simp only [splitext, hd, hsep, hwin]
  rw [if_pos ⟨hsle, hnd⟩]
  rw [List.take_left, List.drop_left]

lemma splitext_eq_self {p : List Char}
    (h : splitext p = (p, [])) : smartOutputNameL p = p := by
  simp [smartOutputNameL, h, STREAMING_EXTENSIONS]

lemma smartOutputNameL_idem (p : List Char) :
    smartOutputNameL (smartOutputNameL p) = smartOutputNameL p := by
  cases hd : lastIdxOf '.' p with
  | none =>
    have hsp : splitext p = (p, []) := by simp [splitext, hd]
    rw [splitext_eq_self hsp, splitext_eq_self hsp]
  | some d =>
    by_cases hc : sepStart p ≤ d ∧
        ((p.drop (sepStart p)).take (d - sepStart p)).any (fun ch => ch ≠ '.')
    · have hsp : splitext p = (p.take d, p.drop d) := by
        simp only [splitext, hd]
        rw [if_pos hc]
      cases hrm : STREAMING_EXTENSIONS ((p.drop d).map Char.toLower) with
      | none =>
        have h1 : smartOutputNameL p = p := by
          unfold smartOutputNameL
          rw [hsp]
          show (match STREAMING_EXTENSIONS ((p.drop d).map Char.toLower) with
            | some newExt => p.take d ++ newExt
            | none => p.take d ++ p.drop d) = p
          rw [hrm]
          exact List.take_append_drop d p
        rw [h1]
        exact h1
      | some newExt =>
        have hnew : newExt = ".mp4".data := by
          unfold STREAMING_EXTENSIONS at hrm
          split_ifs at hrm
          all_goals simp only [Option.some.injEq] at hrm
          all_goals exact hrm.symm
        have hmap : (p.drop d).map Char.toLower = ".m3u8".data ∨
            (p.drop d).map Char.toLower = ".m3u".data ∨
            (p.drop d).map Char.toLower = ".mpd".data ∨
            (p.drop d).map Char.toLower = ".ts".data := by
          unfold STREAMING_EXTENSIONS at hrm
          split_ifs at hrm with h1 h2 h3 h4
          · exact Or.inl h1
          · exact Or.inr (Or.inl h2)
          · exact Or.inr (Or.inr (Or.inl h3))
          · exact Or.inr (Or.inr (Or.inr h4))
        have hnoslash : lastIdxOf '/' (p.drop d) = none := by
          apply lastIdxOf_eq_none_of_not_mem
          intro hmem
          have hml : Char.toLower '/' ∈ (p.drop d).map Char.toLower :=
            List.mem_map_of_mem _ hmem
          rw [show Char.toLower '/' = '/' from rfl] at hml
          rcases hmap with h | h | h | h <;> rw [h] at hml <;> revert hml <;> decide
        have hdlt : d < p.length := lastIdxOf_lt_length hd
        have hstemlen : (p.take d).length = d := by
          simp [List.length_take]
          omega
        have hps : lastIdxOf '/' p = lastIdxOf '/' (p.take d) := by
          conv_lhs => rw [← List.take_append_drop d p]
          exact lastIdxOf_append_none hnoslash (p.take d)
        have hsepeq : sepStart (p.take d) = sepStart p := by
          unfold sepStart
          rw [hps]
        have hnd : (((p.take d).drop (sepStart (p.take d))).take
            ((p.take d).length - sepStart (p.take d))).any (fun ch => ch ≠ '.') := by
          rw [hsepeq, hstemlen, List.drop_take d (sepStart p) p]
          simpa [List.take_take] using hc.2
        have hsle : sepStart (p.take d) ≤ (p.take d).length := by
          rw [hsepeq, hstemlen]
          exact hc.1
        have hmain := splitext_append_mp4 hnd hsle
        have h1 : smartOutputNameL p = p.take d ++ ".mp4".data := by
          unfold smartOutputNameL
          rw [hsp]
          show (match STREAMING_EXTENSIONS ((p.drop d).map Char.toLower) with
            | some ne0 => p.take d ++ ne0
            | none => p.take d ++ p.drop d) = p.take d ++ ".mp4".data
          rw [hrm, hnew]
        have h2 : smartOutputNameL (p.take d ++ ".mp4".data) = p.take d ++ ".mp4".data := by
          unfold smartOutputNameL
          rw [hmain]
          show (match STREAMING_EXTENSIONS ((".mp4".data).map Char.toLower) with
            | some ne0 => p.take d ++ ne0
            | none => p.take d ++ ".mp4".data) = p.take d ++ ".mp4".data
          rw [show STREAMING_EXTENSIONS ((".mp4".data).map Char.toLower) = none from rfl]
        rw [h1, h2]
    · have hsp : splitext p = (p, []) := by
        simp only [splitext, hd]
        rw [if_neg hc]
      rw [splitext_eq_self hsp, splitext_eq_self hsp]

/-! ### Progress snapshots and the strategies' percentage computations -/

/-- One entry of the shared `WEBAPP_PROGRESS` store.  Each Python write
replaces the whole dict value; `lastUpdate` models the `"_last_update"`
key which the sweep in app.py reads. -/
structure Snapshot where
  action : String
  percentage : ℚ
  current : Option String
  total : Option String
  speed : Option String
  url : Option String
  lastUpdate : Option Int
  deriving Repr

/-- Input dict of yt-dlp's progress hook (upload.py 654–697); absent keys
are `none`. -/
structure YtdlpHookData where
  downloaded_bytes : Option Nat
  total_bytes : Option Nat
  total_bytes_estimate : Option Nat
  filesize : Option Nat
  filesize_approx : Option Nat
  speed : Option Nat
  eta : Option Nat
  status : String

/-- Python `a or b` over optional numbers: `None` and `0` are falsy. -/
def orFalsy (a b : Option Nat) : Option Nat :=
  match a with
  | some n => if n = 0 then b else some n
  | none => b

/-- The hook's `done` value: `d.get("downloaded_bytes", 0)`. -/
def hookDone (d : YtdlpHookData) : Nat :=
  d.downloaded_bytes.getD 0

/-- The hook's `total` value:
`d.get("total_bytes") or d.get("total_bytes_estimate") or d.get("filesize")
 or d.get("filesize_approx", 0)`. -/
def hookTotal (d : YtdlpHookData) : Nat :=
  (orFalsy d.total_bytes
    (orFalsy d.total_bytes_estimate
      (orFalsy d.filesize (some (d.filesize_approx.getD 0))))).getD 0

/-- `percent = (done / total * 100) if total else 0` (upload.py 662). -/
def hookPercent (d : YtdlpHookData) : ℚ :=
  if hookTotal d ≠ 0 then (hookDone d : ℚ) / (hookTotal d : ℚ) * 100 else 0

/-- `display_percent = max(1, round(percent, 1))`, then clamped to 99.5
whenever it reaches 100 (upload.py 667–669). -/
def hookDisplayPercent (d : YtdlpHookData) : ℚ :=
  let dp := max 1 (pyRound1 (hookPercent d))
  if 100 ≤ dp then 99.5 else dp

/-- The snapshot written by `_progress_hook` (upload.py 671–677). -/
def hookWrite (d : YtdlpHookData) : Snapshot :=
  ⟨"Downloading Media...",
   hookDisplayPercent d,
   some (humanbytes (some (hookDone d : Int))),
   some (if hookTotal d ≠ 0 then humanbytes (some (hookTotal d : Int)) else "Unknown"),
   some (if d.speed.getD 0 ≠ 0 then humanbytes (some (d.speed.getD 0 : Int)) ++ "/s" else ""),
   none, none⟩

/-- `pct_int = int(download.progress); display = 99.5 if pct_int >= 100`
(upload.py 1413, 1422–1424). -/
def aria2DisplayPct (progress : ℚ) : ℚ :=
  let p : Int := truncInt progress
  if 100 ≤ p then 99.5 else (p : ℚ)

/-- The snapshot written by `_download_aria2c` (upload.py 1426–1432). -/
def aria2Write (progress : ℚ) (current total speed : String) : Snapshot :=
  ⟨"Downloading...", aria2DisplayPct progress, some current, some total,
   some speed, none, none⟩

/-- Python float `x % y` for `y > 0`: `x - y * floor(x / y)`. -/
def pymod (x y : ℚ) : ℚ := x - y * ⌊x / y⌋

/-- `pulsing_pct = min(((elapsed % 10) / 10) * 100, 99.9)`
(upload.py 1160): the repeating 10-second sawtooth of the HLS remux
strategy. -/
def hlsPulsePct (elapsed : ℚ) : ℚ :=
  min (pymod elapsed 10 / 10 * 100) 99.9

/-- The snapshot written by `_download_hls` (upload.py 1161–1167);
the stored percentage is `round(pulsing_pct, 1)`. -/
def hlsWrite (elapsed : ℚ) : Snapshot :=
  ⟨"Weaving Stream together... 🧵",
   pyRound1 (hlsPulsePct elapsed),
   some (time_formatter elapsed), some "Unknown", some "Streaming",
   none, none⟩

/-- The snapshot written by `trigger_webapp_download`
(commands.py 737–743). -/
def triggerInitWrite : Snapshot :=
  ⟨"Initializing download...", 1, some "0 B", some "Unknown", some "---",
   none, none⟩

/-- `prune_progress_task` body (app.py 17–30): delete entries whose
`_last_update` is more than 3600 s old, with the current time as the
default for a missing key. -/
def prune_progress (now : Int) (store : List (Nat × Snapshot)) :
    List (Nat × Snapshot) :=
  store.filter (fun e => !decide (3600 < now - (e.2.lastUpdate.getD now)))

/-! ### Zero-byte handling at the end of each acquisition strategy -/

/-- `Config.MAX_FILE_SIZE` (config.py 36). -/
def MAX_FILE_SIZE : Nat := 2097152000

/-- A downloaded artifact: whether the path exists and its byte size. -/
structure FileSt where
  present : Bool
  size : Nat
  deriving Repr, DecidableEq

/-- End of `download_ytdlp` (upload.py 861–870): missing output raises;
a zero-byte output is removed and raises.  The boolean records whether
the output file was deleted. -/
def ytdlpFinalize (present : Bool) (size : Nat) : Except String Unit × Bool :=
  if ¬ present then
    (.error "Error: output file not found after download", false)
  else if size = 0 then
    (.error "Downloaded file is empty (0 bytes). The download probably failed silently or was blocked.", true)
  else (.ok (), false)

/-- End of `download_cobalt` (upload.py 1000–1005): missing or zero-byte
output is removed and raises. -/
def cobaltFinalize (present : Bool) (size : Nat) : Except String Unit × Bool :=
  if ¬ present ∨ size = 0 then
    (.error "Downloaded file from secondary server is empty (0 bytes).", present)
  else (.ok (), false)

/-! ### The `download_url` routing (upload.py 1201–1342) -/

/-- Which acquisition strategies were executed during one `download_url`
call. -/
structure RouteTrace where
  ytdlpRan : Bool
  cobaltRan : Bool
  hlsRan : Bool
  aria2cRan : Bool
  deriving Repr, DecidableEq

/-- The guard after a successful `download_ytdlp` inside `download_url`
(upload.py 1236–1239): a missing or zero-byte result is converted to an
error that flows into the same `except` handler as an extractor failure. -/
def ytdlpGuard (r : Except String FileSt) : Except String FileSt :=
  match r with
  | .ok f =>
    if f.present ∧ 0 < f.size then .ok f
    else .error "Final yt-dlp download produced a 0B file."
  | .error e => .error e

/-- `download_url` (upload.py 1201–1342) as a routing function.  The
strategy classification (`is_ytdlp_url`, `is_cobalt_url`,
`needs_ffmpeg_download`) is abstracted into the booleans `isY`, `isC`,
`needsF`; each strategy's outcome is an input; `total` is the probed
`Content-Length`.  Mirrors the source control flow: the yt-dlp branch
either returns or raises (falling back to cobalt only when `isC`), the
cobalt-only branch falls through to the generic probe on failure, the
probe routes manifests to ffmpeg, and the generic branch enforces
`MAX_FILE_SIZE` before handing the URL to aria2c. -/
def download_url_route (isY isC needsF : Bool)
    (ytdlpRes cobaltRes hlsRes aria2cRes : Except String FileSt)
    (total : Nat) : Except String FileSt × RouteTrace :=
  if isY then
    match ytdlpGuard ytdlpRes with
    | .ok f => (.ok f, ⟨true, false, false, false⟩)
    | .error e1 =>
      if isC then
        match cobaltRes with
        | .ok f => (.ok f, ⟨true, true, false, false⟩)
        | .error e2 =>
          (.error ("Error 1: " ++ e1 ++ "\n\nError 2: " ++ e2),
           ⟨true, true, false, false⟩)
      else (.error e1, ⟨true, false, false, false⟩)
  else
    match (if isC then some cobaltRes else none) with
    | some (.ok f) => (.ok f, ⟨false, true, false, false⟩)
    | _ =>
      if needsF then
        (hlsRes, ⟨false, isC, true, false⟩)
      else if MAX_FILE_SIZE < total then
        (.error ("File too large: " ++ humanbytes (some (total : Int)) ++
                 " (max " ++ humanbytes (some (MAX_FILE_SIZE : Int)) ++ ")"),
         ⟨false, isC, false, false⟩)
      else
        (aria2cRes, ⟨false, isC, false, true⟩)

/-! ### Active tasks, submission and cancellation -/

/-- One running upload task: `_do_upload_logic` paired with its
`cancel_ref` cell (`cancelFlag`) and its asyncio cancellation request
(`loopCancelled`). -/
structure UploadTask where
  tid : Nat
  owner : Nat
  cancelFlag : Bool
  loopCancelled : Bool
  deriving Repr, DecidableEq

/-- Process-wide shared state: live tasks, the `ACTIVE_TASKS` dict
(requester id to task id) and the `WEBAPP_PROGRESS` dict. -/
structure SysState where
  nextId : Nat
  tasks : List UploadTask
  registry : List (Nat × Nat)
  progress : List (Nat × Snapshot)

/-- Dict lookup (first matching key). -/
def assocGet {α : Type} (k : Nat) : List (Nat × α) → Option α
  | [] => none
  | e :: rest => if e.1 = k then some e.2 else assocGet k rest

/-- Dict deletion / `pop(k, None)`. -/
def assocErase {α : Type} (k : Nat) (m : List (Nat × α)) : List (Nat × α) :=
  m.filter (fun e => !decide (e.1 = k))

/-- Dict assignment `m[k] = v`: overwrites any previous binding of `k`. -/
def assocSet {α : Type} (k : Nat) (v : α) (m : List (Nat × α)) : List (Nat × α) :=
  (k, v) :: assocErase k m

/-- `do_upload` (commands.py 133–155): create a fresh `cancel_ref=[False]`
and task, then `ACTIVE_TASKS[user_id] = (task, cancel_ref)`.  No check of
an existing entry is made; a previous task for the same user is neither
rejected nor cancelled. -/
def do_upload_register (user : Nat) (s : SysState) : SysState :=
  { nextId := s.nextId + 1,
    tasks := ⟨s.nextId, user, false, false⟩ :: s.tasks,
    registry := assocSet user s.nextId s.registry,
    progress := s.progress }

/-- The `finally` clause of `do_upload`: `ACTIVE_TASKS.pop(user_id, None)`
and the finished task leaves the live set. -/
def do_upload_finish (user tid : Nat) (s : SysState) : SysState :=
  { s with
    registry := assocErase user s.registry,
    tasks := s.tasks.filter (fun t => !decide (t.tid = tid)) }

/-- `trigger_webapp_download` (commands.py 731–785): write the initial
progress snapshot, then fire `do_upload` — again without consulting
`ACTIVE_TASKS`. -/
def trigger_webapp_download (chat : Nat) (s : SysState) : SysState :=
  do_upload_register chat
    { s with progress := assocSet chat triggerInitWrite s.progress }

/-- Outcome of the `/api/cancel` endpoint. -/
inductive CancelOutcome
  | notFound
  | accepted
  deriving Repr, DecidableEq

/-- `api_cancel` (app.py 124–146): a missing `ACTIVE_TASKS` entry yields
the 404 "No active process to cancel." response and leaves all state
untouched; otherwise `cancel_ref[0] = True` and `task.cancel()` are both
issued. -/
def api_cancel (user : Nat) (s : SysState) : CancelOutcome × SysState :=
  match assocGet user s.registry with
  | none => (.notFound, s)
  | some tid =>
    (.accepted,
     { s with
       tasks := s.tasks.map (fun t =>
         if t.tid = tid then { t with cancelFlag := true, loopCancelled := true }
         else t) })

/-- `cb_cancel` (commands.py 413–428): the bot-side cancel button; same
two-part signal, answering with an alert text instead of HTTP. -/
def cb_cancel (user : Nat) (s : SysState) : String × SysState :=
  match assocGet user s.registry with
  | none => ("No active process to cancel.", s)
  | some tid =>
    ("Cancelling process…",
     { s with
       tasks := s.tasks.map (fun t =>
         if t.tid = tid then { t with cancelFlag := true, loopCancelled := true }
         else t) })

/-! ### Claim theorems -/

/-- Claim C5: for a URL classified as specialized-extractor-capable whose domain
is not eligible for the secondary fallback, an extractor failure
propagates unchanged from `download_url`, and neither the secondary
fallback nor the streaming remux nor the generic segmented download is
ever executed for that URL. -/
theorem C5_no_generic_fallback (needsF : Bool) (e : String)
    (cobaltRes hlsRes aria2cRes : Except String FileSt) (total : Nat) :
    download_url_route true false needsF (.error e) cobaltRes hlsRes aria2cRes total
      = (.error e, ⟨true, false, false, false⟩) := by
  simp [download_url_route, ytdlpGuard]

/-- Claim C6: when the specialized extractor fails on a fallback-eligible domain,
the fallback is attempted automatically, and if it also fails the caller
receives a single error whose message contains both underlying error
messages. -/
theorem C6_combined_error (needsF : Bool) (e1 e2 : String)
    (hlsRes aria2cRes : Except String FileSt) (total : Nat) :
    download_url_route true true needsF (.error e1) (.error e2) hlsRes aria2cRes total
      = (.error ("Error 1: " ++ e1 ++ "\n\nError 2: " ++ e2),
         ⟨true, true, false, false⟩)
    ∧ (∃ pre post, "Error 1: " ++ e1 ++ "\n\nError 2: " ++ e2 = pre ++ e1 ++ post)
    ∧ (∃ pre, "Error 1: " ++ e1 ++ "\n\nError 2: " ++ e2 = pre ++ e2) := by
  refine ⟨by simp [download_url_route, ytdlpGuard], ⟨"Error 1: ", "\n\nError 2: " ++ e2, ?_⟩,
    ⟨"Error 1: " ++ e1 ++ "\n\nError 2: ", ?_⟩⟩
  · rw [String.append_assoc, String.append_assoc]
  · rfl

/-- Claim C7: on the generic path, a probed Content-Length exceeding the 2 GB
ceiling (2,097,152,000 bytes) raises before any download begins: the
result is the "File too large" error and no acquisition strategy runs,
so no bytes are fetched and no output file is created. -/
theorem C7_size_ceiling (ytdlpRes cobaltRes hlsRes aria2cRes : Except String FileSt)
    (total : Nat) (h : MAX_FILE_SIZE < total) :
    download_url_route false false false ytdlpRes cobaltRes hlsRes aria2cRes total
      = (.error ("File too large: " ++ humanbytes (some (total : Int)) ++
                 " (max " ++ humanbytes (some (MAX_FILE_SIZE : Int)) ++ ")"),
         ⟨false, false, false, false⟩) := by
  simp [download_url_route, h]

/-- Witness for C7 at the spec's concrete scenario C: Content-Length
5,000,000,000 exceeds the ceiling and is rejected with no strategy run. -/
theorem C7_size_ceiling_witness :
    MAX_FILE_SIZE < 5000000000 ∧
    download_url_route false false false (.error "") (.error "") (.error "") (.error "")
        5000000000
      = (.error ("File too large: " ++ humanbytes (some (5000000000 : Int)) ++
                 " (max " ++ humanbytes (some (MAX_FILE_SIZE : Int)) ++ ")"),
         ⟨false, false, false, false⟩) :=
  ⟨by decide, C7_size_ceiling (.error "") (.error "") (.error "") (.error "") 5000000000
    (by decide)⟩

/-- Claim C8: the output-filename extension remap is idempotent, and
`smart_output_name "video.m3u8" = "video.mp4"`. -/
theorem C8_smart_output_name_idem :
    (∀ x : String, smart_output_name (smart_output_name x) = smart_output_name x)
    ∧ smart_output_name "video.m3u8" = "video.mp4" := by
  constructor
  · intro x
    show String.mk (smartOutputNameL (String.mk (smartOutputNameL x.data)).data)
        = String.mk (smartOutputNameL x.data)
    rw [show (String.mk (smartOutputNameL x.data)).data = smartOutputNameL x.data from rfl]
    rw [smartOutputNameL_idem]
  · rfl

/-- Claim C4: cancelling a requester with no ActiveTask yields the "not found"
outcome from both cancellation surfaces without raising and without
touching any ProgressSnapshot; when an ActiveTask exists, both parts of
the cancellation signal (shared boolean flag and cooperative task
cancellation) are set, and still no ProgressSnapshot is altered. -/
theorem C4_cancel_semantics :
    (∀ (u : Nat) (s : SysState), assocGet u s.registry = none →
      api_cancel u s = (.notFound, s) ∧
      cb_cancel u s = ("No active process to cancel.", s))
    ∧ (∀ (u : Nat) (s : SysState) (tid : Nat), assocGet u s.registry = some tid →
      (api_cancel u s).2.progress = s.progress ∧
      (∀ t ∈ (api_cancel u s).2.tasks, t.tid = tid →
        t.cancelFlag = true ∧ t.loopCancelled = true) ∧
      (∀ t ∈ (cb_cancel u s).2.tasks, t.tid = tid →
        t.cancelFlag = true ∧ t.loopCancelled = true)) := by
  constructor
  · intro u s h
    constructor <;> simp [api_cancel, cb_cancel, h]
  · intro u s tid h
    refine ⟨by simp [api_cancel, h], ?_, ?_⟩
    all_goals
      simp only [api_cancel, cb_cancel, h]
      intro t ht htid
      rcases List.mem_map.mp ht with ⟨t0, ht0, rfl⟩
      by_cases h0 : t0.tid = tid
      · simp [h0]
      · simp only [if_neg h0] at htid ⊢
        exact absurd htid h0

/-- Witness for C4: a state with an empty registry answers "not found"
with unchanged state, and a state with a registered task for user 7 has
its progress untouched by cancellation. -/
theorem C4_cancel_semantics_witness :
    (assocGet 7 (SysState.mk 0 [] [] []).registry = none ∧
      api_cancel 7 ⟨0, [], [], []⟩ = (.notFound, ⟨0, [], [], []⟩)) ∧
    (assocGet 7 (SysState.mk 1 [⟨0, 7, false, false⟩] [(7, 0)] []).registry = some 0 ∧
      (api_cancel 7 ⟨1, [⟨0, 7, false, false⟩], [(7, 0)], []⟩).2.progress = []) :=
  ⟨⟨rfl, (C4_cancel_semantics.1 7 ⟨0, [], [], []⟩ rfl).1⟩,
   ⟨rfl, (C4_cancel_semantics.2 7 ⟨1, [⟨0, 7, false, false⟩], [(7, 0)], []⟩ 0 rfl).1⟩⟩

/-- Claim C1 counterexample: two consecutive web submissions for requester 7.
The second is not rejected and does not supersede the first: afterwards
two live tasks owned by 7 exist, both with every part of their
cancellation signal unset, so both keep writing 7's ProgressSnapshot. -/
theorem C1_counterexample :
    (trigger_webapp_download 7 (trigger_webapp_download 7 ⟨0, [], [], []⟩)).tasks
      = [⟨1, 7, false, false⟩, ⟨0, 7, false, false⟩]
    ∧ assocGet 7
        (trigger_webapp_download 7 (trigger_webapp_download 7 ⟨0, [], [], []⟩)).registry
      = some 1 := by
  exact ⟨rfl, rfl⟩

/-- Claim C1 amended: a new submission merely overwrites the registry entry
(the dict keyed by requester id keeps at most one entry per id and now
maps to the new task) while every previously running task survives with
both cancellation parts still unset. -/
theorem C1_registry_overwrite (u : Nat) (s : SysState) :
    (do_upload_register u s).tasks = ⟨s.nextId, u, false, false⟩ :: s.tasks
    ∧ assocGet u (do_upload_register u s).registry = some s.nextId
    ∧ ((do_upload_register u s).registry.filter (fun e => decide (e.1 = u))).length = 1 := by
  refine ⟨rfl, by simp [do_upload_register, assocSet, assocGet], ?_⟩
  simp only [do_upload_register, assocSet, assocErase, List.filter_cons]
  simp [List.filter_filter]

/-- Claim C2 counterexample: on the generic segmented path (and on the
streaming-remux path) a zero-byte output file is returned to the caller
— and hence handed to the delivery stage — instead of being treated as a
failure. -/
theorem C2_zero_byte_passthrough :
    (download_url_route false false false (.error "x") (.error "x")
        (.error "x") (.ok ⟨true, 0⟩) 100).1 = .ok ⟨true, 0⟩
    ∧ (download_url_route false false false (.error "x") (.error "x")
        (.error "x") (.ok ⟨true, 0⟩) 100).2.aria2cRan = true
    ∧ (download_url_route false false true (.error "x") (.error "x")
        (.ok ⟨true, 0⟩) (.error "x") 100).1 = .ok ⟨true, 0⟩ :=
  ⟨rfl, rfl, rfl⟩

/-- Claim C2 amended: the specialized extractor and the secondary fallback
treat a zero-byte output as a failure (raising and deleting it), and the
extractor path inside `download_url` additionally guards against it; but
the streaming-remux and generic segmented paths hand a zero-byte file on
to delivery without any size check. -/
theorem C2_zero_byte_policy :
    ytdlpFinalize true 0
      = (.error "Downloaded file is empty (0 bytes). The download probably failed silently or was blocked.", true)
    ∧ cobaltFinalize true 0
      = (.error "Downloaded file from secondary server is empty (0 bytes).", true)
    ∧ ytdlpGuard (.ok ⟨true, 0⟩) = .error "Final yt-dlp download produced a 0B file."
    ∧ (∀ y c h : Except String FileSt,
        (download_url_route false false false y c h (.ok ⟨true, 0⟩) 100).1 = .ok ⟨true, 0⟩)
    ∧ (∀ y c a : Except String FileSt,
        (download_url_route false false true y c (.ok ⟨true, 0⟩) a 100).1 = .ok ⟨true, 0⟩) :=
  ⟨rfl, rfl, rfl, fun _ _ _ => rfl, fun _ _ _ => rfl⟩

/-- Claim C9: the background sweep can only remove an entry whose
`_last_update` age exceeds 3600 s, but no strategy ever writes that key,
so the sweep defaults the age to zero and keeps every such entry forever
— the claimed one-hour garbage collection never happens. -/
theorem C9_prune_never_removes :
    (∀ (now : Int) (store : List (Nat × Snapshot)),
      (∀ e ∈ store, (e.2).lastUpdate = none) → prune_progress now store = store)
    ∧ (∀ d, (hookWrite d).lastUpdate = none)
    ∧ (∀ p c t s, (aria2Write p c t s).lastUpdate = none)
    ∧ (∀ e, (hlsWrite e).lastUpdate = none)
    ∧ triggerInitWrite.lastUpdate = none := by
  refine ⟨?_, fun d => rfl, fun p c t s => rfl, fun e => rfl, rfl⟩
  intro now store h
  apply List.filter_eq_self.mpr
  intro e he
  rw [h e he]
  simp

/-- Witness for C9: the snapshot written at submission time survives a
sweep two hours later. -/
theorem C9_prune_never_removes_witness :
    prune_progress 7200 [(7, triggerInitWrite)] = [(7, triggerInitWrite)] :=
  C9_prune_never_removes.1 7200 [(7, triggerInitWrite)]
    (by intro e he; simp only [List.mem_singleton] at he; subst he; rfl)

lemma roundHalfEven_intCast (n : Int) : roundHalfEven ((n : ℚ)) = n := by
  simp only [roundHalfEven, Int.floor_intCast]
  norm_num

lemma roundHalfEven_le {q : ℚ} {n : Int} (h : q ≤ (n : ℚ)) : roundHalfEven q ≤ n := by
  have hf : ⌊q⌋ ≤ n := by
    have h2 := Int.floor_le_floor h
    simpa using h2
  have hup : ¬ (q - (⌊q⌋ : ℚ) < 1/2) → ⌊q⌋ + 1 ≤ n := by
    intro hge
    push_neg at hge
    by_contra hcon
    push_neg at hcon
    have hn : n = ⌊q⌋ := by omega
    rw [hn] at h
    linarith
  simp only [roundHalfEven]
  split_ifs with h1 h2 h3
  · exact hf
  · exact hup h1
  · exact hf
  · exact hup h1

lemma pyRound1_lt_100 {x : ℚ} (h : x ≤ 99.9) : pyRound1 x < 100 := by
  unfold pyRound1
  have h999 : x * 10 ≤ ((999 : Int) : ℚ) := by push_cast; linarith
  have hr := roundHalfEven_le h999
  have hr2 : (roundHalfEven (x * 10) : ℚ) ≤ 999 := by exact_mod_cast hr
  linarith

lemma truncInt_mono {q1 q2 : ℚ} (h : q1 ≤ q2) : truncInt q1 ≤ truncInt q2 := by
  unfold truncInt
  split_ifs with h1 h2 h2
  · exact Int.floor_le_floor h
  · exact absurd (le_trans h1 h) h2
  · calc ⌈q1⌉ ≤ 0 := Int.ceil_le.mpr (by exact_mod_cast le_of_lt (not_le.mp h1))
      _ ≤ ⌊q2⌋ := by
        have := Int.floor_le_floor (show (0:ℚ) ≤ q2 from h2)
        simpa using this
  · exact Int.ceil_le_ceil h

/-- Claim C3 counterexample: two successive updates of the extractor hook in
its single "Downloading Media..." phase, the second strictly later (more
bytes downloaded of the same total), yield a percentage that DROPS from
99.9 to 99.5; likewise the streaming-remux sawtooth drops from 90 (at
9 s elapsed) to 10 (at 11 s elapsed) within its single phase. -/
theorem C3_percent_decrease :
    hookDone ⟨some 999, some 1000, none, none, none, none, none, "downloading"⟩
      < hookDone ⟨some 1000, some 1000, none, none, none, none, none, "downloading"⟩
    ∧ hookTotal ⟨some 999, some 1000, none, none, none, none, none, "downloading"⟩
      = hookTotal ⟨some 1000, some 1000, none, none, none, none, none, "downloading"⟩
    ∧ (hookWrite ⟨some 999, some 1000, none, none, none, none, none, "downloading"⟩).action
      = (hookWrite ⟨some 1000, some 1000, none, none, none, none, none, "downloading"⟩).action
    ∧ (hookWrite ⟨some 999, some 1000, none, none, none, none, none, "downloading"⟩).percentage
      = 999/10
    ∧ (hookWrite ⟨some 1000, some 1000, none, none, none, none, none, "downloading"⟩).percentage
      = 199/2
    ∧ (hookWrite ⟨some 1000, some 1000, none, none, none, none, none, "downloading"⟩).percentage
      < (hookWrite ⟨some 999, some 1000, none, none, none, none, none, "downloading"⟩).percentage
    ∧ (hlsWrite 9).percentage = 90
    ∧ (hlsWrite 11).percentage = 10
    ∧ (hlsWrite 11).action = (hlsWrite 9).action
    ∧ (hlsWrite 11).percentage < (hlsWrite 9).percentage := by
  have e1 : (hookWrite ⟨some 999, some 1000, none, none, none, none, none, "downloading"⟩).percentage
      = 999/10 := by
    have hpct : hookPercent ⟨some 999, some 1000, none, none, none, none, none, "downloading"⟩
        = 999/10 := by
      unfold hookPercent
      rw [show hookTotal ⟨some 999, some 1000, none, none, none, none, none, "downloading"⟩
          = 1000 from rfl,
        show hookDone ⟨some 999, some 1000, none, none, none, none, none, "downloading"⟩
          = 999 from rfl]
      norm_num
    show (if 100 ≤ max 1 (pyRound1 (hookPercent
        ⟨some 999, some 1000, none, none, none, none, none, "downloading"⟩)) then (99.5:ℚ)
      else max 1 (pyRound1 (hookPercent
        ⟨some 999, some 1000, none, none, none, none, none, "downloading"⟩))) = 999/10
    rw [hpct]
    have hr : pyRound1 ((999:ℚ)/10) = 999/10 := by
      unfold pyRound1
      rw [show (999:ℚ)/10 * 10 = ((999 : Int) : ℚ) by norm_num, roundHalfEven_intCast]
      norm_num
    rw [hr, max_eq_right (by norm_num : (1:ℚ) ≤ 999/10),
      if_neg (by norm_num : ¬ (100:ℚ) ≤ 999/10)]
  have e2 : (hookWrite ⟨some 1000, some 1000, none, none, none, none, none, "downloading"⟩).percentage
      = 199/2 := by
    have hpct : hookPercent ⟨some 1000, some 1000, none, none, none, none, none, "downloading"⟩
        = 100 := by
      unfold hookPercent
      rw [show hookTotal ⟨some 1000, some 1000, none, none, none, none, none, "downloading"⟩
          = 1000 from rfl,
        show hookDone ⟨some 1000, some 1000, none, none, none, none, none, "downloading"⟩
          = 1000 from rfl]
      norm_num
    show (if 100 ≤ max 1 (pyRound1 (hookPercent
        ⟨some 1000, some 1000, none, none, none, none, none, "downloading"⟩)) then (99.5:ℚ)
      else max 1 (pyRound1 (hookPercent
        ⟨some 1000, some 1000, none, none, none, none, none, "downloading"⟩))) = 199/2
    rw [hpct]
    have hr : pyRound1 ((100:ℚ)) = 100 := by
      unfold pyRound1
      rw [show (100:ℚ) * 10 = ((1000 : Int) : ℚ) by norm_num, roundHalfEven_intCast]
      norm_num
    rw [hr, max_eq_right (by norm_num : (1:ℚ) ≤ 100),
      if_pos (le_refl (100:ℚ))]
    norm_num
  have e3 : (hlsWrite 9).percentage = 90 := by
    show pyRound1 (hlsPulsePct 9) = 90
    have hp : hlsPulsePct 9 = 90 := by
      unfold hlsPulsePct pymod
      rw [show ⌊(9 : ℚ) / 10⌋ = 0 by norm_num]
      norm_num
    rw [hp]
    unfold pyRound1
    rw [show (90 : ℚ) * 10 = ((900 : Int) : ℚ) by norm_num, roundHalfEven_intCast]
    norm_num
  have e4 : (hlsWrite 11).percentage = 10 := by
    show pyRound1 (hlsPulsePct 11) = 10
    have hp : hlsPulsePct 11 = 10 := by
      unfold hlsPulsePct pymod
      rw [show ⌊(11 : ℚ) / 10⌋ = 1 by norm_num]
      norm_num
    rw [hp]
    unfold pyRound1
    rw [show (10 : ℚ) * 10 = ((100 : Int) : ℚ) by norm_num, roundHalfEven_intCast]
    norm_num
  refine ⟨by decide, rfl, rfl, e1, e2, ?_, e3, e4, rfl, ?_⟩
  · rw [e1, e2]
    norm_num
  · rw [e3, e4]
    norm_num

/-- Claim C3 amended: no strategy ever writes a percentage of 100 or more
before confirming completion (the extractor hook and the segmented
downloader clamp to 99.5, the streaming sawtooth to 99.9), and the
segmented downloader's displayed percentage is monotone in the daemon's
reported progress — but monotonicity fails for the extractor hook near
completion and for the streaming sawtooth (see the counterexample). -/
theorem C3_percent_cap :
    (∀ d : YtdlpHookData, (hookWrite d).percentage < 100)
    ∧ (∀ q : ℚ, aria2DisplayPct q < 100)
    ∧ (∀ e : ℚ, (hlsWrite e).percentage < 100)
    ∧ (∀ q1 q2 : ℚ, q1 ≤ q2 → aria2DisplayPct q1 ≤ aria2DisplayPct q2) := by
  refine ⟨?_, ?_, ?_, ?_⟩
  · intro d
    show hookDisplayPercent d < 100
    unfold hookDisplayPercent
    by_cases hc : (100:ℚ) ≤ max 1 (pyRound1 (hookPercent d))
    · rw [if_pos hc]
      norm_num
    · rw [if_neg hc]
      exact not_le.mp hc
  · intro q
    unfold aria2DisplayPct
    by_cases hc : (100:Int) ≤ truncInt q
    · rw [if_pos hc]
      norm_num
    · rw [if_neg hc]
      exact_mod_cast not_le.mp hc
  · intro e
    show pyRound1 (hlsPulsePct e) < 100
    exact pyRound1_lt_100 (min_le_right _ _)
  · intro q1 q2 h
    have hm := truncInt_mono h
    show (if 100 ≤ truncInt q1 then (99.5:ℚ) else ((truncInt q1 : Int) : ℚ))
      ≤ (if 100 ≤ truncInt q2 then (99.5:ℚ) else ((truncInt q2 : Int) : ℚ))
    split_ifs with h1 h2 h2
    · norm_num
    · omega
    · have : truncInt q1 ≤ 99 := by omega
      have : (truncInt q1 : ℚ) ≤ 99 := by exact_mod_cast this
      linarith
    · exact_mod_cast hm

/-- Witness for C3: the segmented downloader's displayed percentage is
monotone across the concrete progress pair 3 ≤ 7. -/
theorem C3_percent_cap_witness :
    (3:ℚ) ≤ 7 ∧ aria2DisplayPct 3 ≤ aria2DisplayPct 7 :=
  ⟨by norm_num, C3_percent_cap.2.2.2 3 7 (by norm_num)⟩

lemma roundHalfEven_zero : roundHalfEven 0 = 0 := by
  have h0 : ((0 : Int) : ℚ) = 0 := by norm_num
  rw [← h0, roundHalfEven_intCast]

/-- Claim C10: the progress formatters are total at the public interface:
`progress_bar` yields the all-empty bar for `total = 0` instead of
dividing by zero, and `humanbytes` maps `None` and negative sizes to
"Unknown" and zero to "0 B". -/
theorem C10_formatters_total :
    (∀ current : Int, progress_bar current 0 = "[░░░░░░░░░░░░] 0.0%")
    ∧ humanbytes none = "Unknown"
    ∧ (∀ n : Int, n < 0 → humanbytes (some n) = "Unknown")
    ∧ humanbytes (some 0) = "0 B" := by
  refine ⟨?_, rfl, ?_, rfl⟩
  · intro c
    unfold progress_bar
    norm_num
    unfold fmtFixed
    rw [show (0:ℚ) * (10:ℚ)^1 = 0 by norm_num, roundHalfEven_zero]
    rfl
  · intro n hn
    show (if n < 0 then "Unknown"
      else if n = 0 then "0 B"
      else humanbytesLoop (n : ℚ) ["B", "KB", "MB", "GB", "TB"]) = "Unknown"
    rw [if_pos hn]

/-- Witness for C10: concrete evaluations through the theorem. -/
theorem C10_formatters_total_witness :
    progress_bar 5 0 = "[░░░░░░░░░░░░] 0.0%" ∧ humanbytes (some (-3)) = "Unknown" :=
  ⟨C10_formatters_total.1 5, C10_formatters_total.2.2.1 (-3) (by norm_num)⟩

end TeleLink
